import Mathlib

/-!
Verification of the MSSQL → MariaDB migration engine
(`scripts/transform_original.py`, class `DatabaseMigrator`).

Each definition below is a shallow embedding of one method of the source,
translated directly from the Python: pure functions become Lean functions,
the table-transfer loop becomes explicit state passing over a transaction
state, database round trips become oracle parameters (a function supplying
the values the database would return).  Strings of the source are Lean
`String`s; Python `None` becomes `Option`.
-/

namespace DBTransfer

/-! ## Type mapper (`convert_datatype`, lines 502–527) -/

/-- Models Python `str.lower()` for the ASCII type names that reach
`convert_datatype`. -/
def lowerString (s : String) : String :=
  ⟨s.data.map Char.toLower⟩

/-- The `datatype_mapping` dictionary built in `DatabaseMigrator.__init__`
(lines 48–70). -/
def datatype_mapping : List (String × String) :=
  [("int", "INT"),
   ("bigint", "BIGINT"),
   ("smallint", "SMALLINT"),
   ("tinyint", "TINYINT"),
   ("bit", "BOOLEAN"),
   ("decimal", "DECIMAL"),
   ("numeric", "DECIMAL"),
   ("money", "DECIMAL(19,4)"),
   ("float", "DOUBLE"),
   ("real", "FLOAT"),
   ("datetime", "DATETIME"),
   ("datetime2", "DATETIME"),
   ("date", "DATE"),
   ("time", "TIME"),
   ("varchar", "VARCHAR"),
   ("nvarchar", "VARCHAR"),
   ("char", "CHAR"),
   ("nchar", "CHAR"),
   ("text", "TEXT"),
   ("ntext", "LONGTEXT"),
   ("uniqueidentifier", "VARCHAR(36)")]

/-- Python truthiness of a nullable integer: `None` and `0` are falsy,
every other integer is truthy. -/
def truthy : Option Int → Bool
  | none => false
  | some n => n != 0

/-- `convert_datatype(mssql_type, length, precision, scale)`.  Python
truthiness is translated literally: `if precision and scale is not None`
becomes `truthy precision && !scale.isNone`; `if length and length > 0`
becomes `truthy length && 0 < length`.  Inside a branch guarded by
`truthy o` the value `o.getD 0` is the integer Python interpolates into
the f-string. -/
def convert_datatype (mssql_type : String) (length precision scale : Option Int) : String :=
  let t := lowerString mssql_type
  if t = "decimal" ∨ t = "numeric" then
    if truthy precision && !scale.isNone then
      "DECIMAL(" ++ toString (precision.getD 0) ++ "," ++ toString (scale.getD 0) ++ ")"
    else "DECIMAL(10,2)"
  else if t = "varchar" ∨ t = "nvarchar" then
    if truthy length && decide (0 < length.getD 0) then
      if 16383 < length.getD 0 then "TEXT" else "VARCHAR(" ++ toString (length.getD 0) ++ ")"
    else "TEXT"
  else if t = "char" ∨ t = "nchar" then
    if truthy length && decide (0 < length.getD 0) then
      if 255 < length.getD 0 then "VARCHAR(" ++ toString (length.getD 0) ++ ")"
      else "CHAR(" ++ toString (length.getD 0) ++ ")"
    else "CHAR(1)"
  else
    ((datatype_mapping.lookup t).getD "TEXT")

/-! ## Batched transfer engine (`migrate_table_data`, lines 585–710)

The MariaDB connection is opened with `autocommit=False`; its observable
state is the number of rows durably committed plus the number of rows
staged in the open transaction.  `commit` moves staged rows to committed,
`rollback` discards them.  A batch either succeeds wholly (`batchOk` true
for its batch number) or fails; on failure the code rolls back, so any
rows the driver had staged for the failing batch are discarded and the
returned state is identical whether or not the failing `executemany` had
partially staged rows. -/

structure TxState where
  committed : Nat
  pending : Nat
deriving DecidableEq

/-- `connection.commit()`: the staged rows become durable. -/
def commitTx (st : TxState) : TxState := ⟨st.committed + st.pending, 0⟩

/-- `connection.rollback()`: the staged rows are discarded. -/
def rollbackTx (st : TxState) : TxState := ⟨st.committed, 0⟩

/-- Staging one successfully inserted page of `k` rows inside the open
transaction. -/
def stageRows (st : TxState) (k : Nat) : TxState := ⟨st.committed, st.pending + k⟩

/-- The `while offset < total_records` loop of `migrate_table_data`
(lines 621–676) followed by the final commit (lines 678–697).  One fuel
unit is spent per iteration; the wrapper passes `total + 1`, which is
enough because every iteration advances `offset` by `batch_size ≥ 1`
(when `batch_size = 0` the fetched page is empty and the loop breaks).
The page fetched at `offset` has `min batchSize (total - offset)` rows;
the in-loop commit fires when `batch_number % 50 == 0` or
`offset + batch_size >= total_records` (line 652), a failed batch rolls
back the whole open transaction and returns `False` (lines 663–667). -/
def migrateLoop (batchSize total : Nat) (batchOk : Nat → Bool) :
    Nat → Nat → Nat → TxState → Bool × TxState
  | 0, _, _, st => (false, rollbackTx st)
  | fuel + 1, offset, batchNumber, st =>
    if offset < total then
      let pageLen := min batchSize (total - offset)
      if pageLen = 0 then
        (true, commitTx st)
      else if batchOk (batchNumber + 1) then
        let staged := stageRows st pageLen
        let staged' :=
          if (batchNumber + 1) % 50 = 0 ∨ total ≤ offset + batchSize then commitTx staged
          else staged
        migrateLoop batchSize total batchOk fuel (offset + batchSize) (batchNumber + 1) staged'
      else
        (false, rollbackTx st)
    else
      (true, commitTx st)

/-- `migrate_table_data` for a table of `total` source rows: returns the
boolean result of the Python function together with the final transaction
state of the target connection.  A table with no rows returns `True`
without opening a transaction (lines 606–609). -/
def migrate_table_data (batchSize total : Nat) (batchOk : Nat → Bool) : Bool × TxState :=
  if total = 0 then (true, ⟨0, 0⟩)
  else migrateLoop batchSize total batchOk (total + 1) 0 0 ⟨0, 0⟩

/-! ## Batch insertion (`insert_batch_to_mariadb`, lines 712–775)

The observable behaviour claimed of this function is the sequence of
driver calls it issues for one page of rows: `cursor.execute` with a
single row, or `cursor.executemany` with a list of rows.  -/

inductive InsertCall (α : Type) where
  | single (row : α)
  | batch (rows : List α)
deriving DecidableEq

/-- Slicing `data[i:i+100]` for `i in range(0, len(data), 100)` (lines
748–752): consecutive chunks of at most `k` elements.  Structural fuel;
`k > 0` and `fuel ≥ l.length` make the fuel irrelevant. -/
def chunksOfAux (k : Nat) : Nat → List α → List (List α)
  | 0, _ => []
  | _, [] => []
  | fuel + 1, x :: xs => (x :: xs).take k :: chunksOfAux k fuel ((x :: xs).drop k)

def chunksOf (k : Nat) (l : List α) : List (List α) :=
  chunksOfAux k l.length l

/-- The insert calls `insert_batch_to_mariadb` issues for one page `rows`
(lines 740–752): an empty page returns immediately; one row uses a
single-row `execute`; at most 100 rows one `executemany`; otherwise one
`executemany` per 100-row chunk. -/
def insert_batch_to_mariadb (rows : List α) : List (InsertCall α) :=
  match rows with
  | [] => []
  | [r] => [InsertCall.single r]
  | r₁ :: r₂ :: rest =>
      if (r₁ :: r₂ :: rest).length ≤ 100 then [InsertCall.batch (r₁ :: r₂ :: rest)]
      else (chunksOf 100 (r₁ :: r₂ :: rest)).map InsertCall.batch

/-! ## Row-level fallback (`fallback_single_insert`, lines 811–855)

A row is a list of column values; a Python string is its list of
characters.  `rowOk i` tells whether `cursor.execute` succeeds on the row
at position `i` (raising `mysql.connector.Error` otherwise). -/

inductive Val where
  | vstr (chars : List Char)
  | vnum (n : Int)
  | vnull
deriving DecidableEq

/-- The per-column log preparation of lines 843–847: a string value longer
than 50 characters is logged as its first 47 characters followed by
`...`; every other value is logged unchanged. -/
def truncateValue : Val → Val
  | .vstr s => if 50 < s.length then .vstr (s.take 47 ++ ['.', '.', '.']) else .vstr s
  | v => v

/-- Length of the value as Python `len` sees it in the truncation check
(only string values are length-checked at line 844). -/
def valLen : Val → Nat
  | .vstr s => s.length
  | _ => 0

structure FallbackResult where
  successCount : Nat
  errorCount : Nat
  loggedErrors : List (Nat × List Val)
  attempted : Nat
  returnValue : Bool
deriving DecidableEq

/-- The `for index, row in df.iterrows()` loop of `fallback_single_insert`:
per-row error detail is logged only while `error_count <= 5`
(line 837), the loop breaks as soon as `error_count > 10` (line 850), and
the function returns `error_count == 0` (line 855).  `attempted` counts
the rows on which `cursor.execute` was actually called. -/
def fallbackLoop (rowOk : Nat → Bool) :
    List (List Val) → Nat → Nat → Nat → List (Nat × List Val) → FallbackResult
  | [], _, s, e, log => ⟨s, e, log, s + e, e == 0⟩
  | row :: rest, idx, s, e, log =>
    if rowOk idx then fallbackLoop rowOk rest (idx + 1) (s + 1) e log
    else
      let e' := e + 1
      let log' := if e' ≤ 5 then log ++ [(idx, row.map truncateValue)] else log
      if 10 < e' then ⟨s, e', log', s + e', e' == 0⟩
      else fallbackLoop rowOk rest (idx + 1) s e' log'

def fallback_single_insert (rows : List (List Val)) (rowOk : Nat → Bool) : FallbackResult :=
  fallbackLoop rowOk rows 0 0 0 []

/-! ## Validator (`validate_*`, lines 953–1092)

Database round trips are replaced by their results: the two `COUNT(*)`
values, the two fetched samples, and for each numeric column the two
`(MIN, MAX)` pairs (`None` when the column has no non-null rows). -/

/-- `validate_sample_data` (lines 1039–1060): fetches up to `sample_size`
rows from each side and compares only the lengths of the two fetched
lists; an empty source sample returns `True` before the target is even
queried. -/
def validate_sample_data {ρ : Type} (mssqlSample mariadbSample : List ρ) : Bool :=
  if mssqlSample.isEmpty then true
  else mssqlSample.length == mariadbSample.length

structure ColExtremes where
  srcMin : Option Int
  srcMax : Option Int
  tgtMin : Option Int
  tgtMax : Option Int
deriving DecidableEq

/-- `validate_extreme_values` (lines 1062–1092): returns `False` on the
first numeric column whose `MIN` or `MAX` differs between the two
databases, `True` when the loop finishes. -/
def validate_extreme_values (cols : List ColExtremes) : Bool :=
  cols.all (fun c => !(c.srcMin != c.tgtMin || c.srcMax != c.tgtMax))

structure TableValidation where
  record_count_match : Bool
  mssql_count : Nat
  mariadb_count : Nat
  sample_data_match : Bool
  extreme_values_match : Bool
  data_consistency : Bool
deriving DecidableEq

/-- `validate_single_table` (lines 989–1037): all flags start `False`;
the sample and extreme-value checks run only when the row counts match
and the source count is positive; `data_consistency` is the conjunction
of the three flags (lines 1025–1029). -/
def validate_single_table {ρ : Type} (mssqlCount mariadbCount : Nat)
    (mssqlSample mariadbSample : List ρ) (cols : List ColExtremes) : TableValidation :=
  let rcm : Bool := mssqlCount == mariadbCount
  let sdm : Bool :=
    if rcm && decide (0 < mssqlCount) then validate_sample_data mssqlSample mariadbSample
    else false
  let evm : Bool :=
    if rcm && decide (0 < mssqlCount) then validate_extreme_values cols
    else false
  { record_count_match := rcm, mssql_count := mssqlCount, mariadb_count := mariadbCount,
    sample_data_match := sdm, extreme_values_match := evm,
    data_consistency := rcm && sdm && evm }

/-- The constant result `validate_migration_complete` records for the
table named `Memo` (lines 966–975). -/
def memoValidation : TableValidation :=
  { record_count_match := true, mssql_count := 0, mariadb_count := 0,
    sample_data_match := true, extreme_values_match := true, data_consistency := true }

/-- `validate_migration_complete` (lines 953–987): walks the source table
list; a table named `Memo` gets the hard-coded all-true result without
any database access, every other table gets the result of
`validate_single_table` (abstracted as the oracle `validateTable`, which
stands for the queries issued against both databases).  Returns the
per-table results in processing order together with `overall_success`. -/
def validate_migration_complete (tables : List String)
    (validateTable : String → TableValidation) :
    List (String × TableValidation) × Bool :=
  let results := tables.map (fun t => (t, if t = "Memo" then memoValidation else validateTable t))
  (results, results.all (fun r => r.2.data_consistency))

/-! ## Orchestrator (`migrate_full_database`, lines 1174–1282)

`tableOrder` is the hard-coded priority list, `allTables` the tables
discovered in the source.  `schemaOk t` means `get_table_schema` returned
a non-empty column list for `t`, `createOk t` that `create_mariadb_table`
succeeded, `migrateOk t` that `migrate_table_data` returned `True`. -/

structure MigrationSummary where
  structureSuccess : Nat
  dataSuccess : Nat
  failedTables : List String
  success : Bool
deriving DecidableEq

/-- Tables of the priority list that exist in the source, in priority
order — the ones processed by the structure phase (lines 1202–1216) and
the transfer phase (lines 1229–1242). -/
def phase2Tables (tableOrder allTables : List String) : List String :=
  tableOrder.filter (fun t => allTables.contains t)

/-- Discovered tables outside the priority list whose structure phase
succeeded — the extra tables whose data is transferred in lines
1245–1259 (the transfer is attempted only when introspection and creation
both succeeded there). -/
def remainingAttempts (tableOrder allTables : List String)
    (schemaOk createOk : String → Bool) : List String :=
  (allTables.filter (fun t => !(tableOrder.contains t))).filter
    (fun t => schemaOk t && createOk t)

/-- The tables on which `migrate_full_database` invokes
`migrate_table_data`, in invocation order: none when the table list is
empty (line 1194) or when no structure was created (line 1218), else the
priority-phase tables followed by the qualifying extra tables. -/
def transferAttempts (tableOrder allTables : List String)
    (schemaOk createOk : String → Bool) : List String :=
  if allTables.isEmpty then []
  else if ((phase2Tables tableOrder allTables).filter
      (fun t => schemaOk t && createOk t)).length = 0 then []
  else phase2Tables tableOrder allTables ++
    remainingAttempts tableOrder allTables schemaOk createOk

/-- `migrate_full_database`: empty table list aborts (lines 1193–1196);
the structure phase counts priority tables whose introspection and
creation succeed, aborting when none did (lines 1218–1220); the transfer
phase attempts every existing priority table, appending failures to
`failed_tables` and never aborting (lines 1229–1242); extra tables are
structured and, on success, transferred likewise (lines 1245–1259); the
function returns `data_success_count > 0` (line 1282). -/
def migrate_full_database (tableOrder allTables : List String)
    (schemaOk createOk migrateOk : String → Bool) : MigrationSummary :=
  if allTables.isEmpty then ⟨0, 0, [], false⟩
  else
    let ordered := phase2Tables tableOrder allTables
    let structureSuccess := (ordered.filter (fun t => schemaOk t && createOk t)).length
    if structureSuccess = 0 then ⟨structureSuccess, 0, [], false⟩
    else
      let dataSuccess₂ := (ordered.filter (fun t => migrateOk t)).length
      let failed₂ := ordered.filter (fun t => !(migrateOk t))
      let extra := remainingAttempts tableOrder allTables schemaOk createOk
      let dataSuccess₃ := (extra.filter (fun t => migrateOk t)).length
      let failed₃ := extra.filter (fun t => !(migrateOk t))
      ⟨structureSuccess + extra.length, dataSuccess₂ + dataSuccess₃,
        failed₂ ++ failed₃, decide (0 < dataSuccess₂ + dataSuccess₃)⟩

/-! ## Theorems -/

/-! ### Helper lemmas about strings and association-list lookup -/

lemma data_append (a b : String) : (a ++ b).data = a.data ++ b.data := by
  cases a; cases b; rfl

lemma data_nil_iff (s : String) : s.data = [] ↔ s = "" := by
  cases s with
  | mk d =>
      constructor
      · intro h
        have : d = [] := h
        rw [this]
      · intro h
        rw [h]

lemma ne_empty_of_left (a b : String) (ha : a ≠ "") : a ++ b ≠ "" := by
  intro hc
  have hd : a.data ++ b.data = ([] : List Char) := by
    rw [← data_append, hc]
  exact ha ((data_nil_iff a).mp (List.append_eq_nil.mp hd).1)

lemma lookup_ne_empty :
    ∀ (l : List (String × String)), (∀ p ∈ l, p.2 ≠ "") →
      ∀ k v, List.lookup k l = some v → v ≠ "" := by
  intro l
  induction l with
  | nil => intro _ k v h; simp [List.lookup] at h
  | cons a t ih =>
      intro hall k v h
      rcases hb : k == a.1 with _ | _
      · rw [List.lookup, hb] at h
        exact ih (fun p hp => hall p (List.mem_cons_of_mem _ hp)) k v h
      · rw [List.lookup, hb] at h
        simp at h
        subst h
        exact hall a (List.mem_cons_self _ _)

lemma convert_datatype_nonempty (t : String) (l p s : Option Int) :
    convert_datatype t l p s ≠ "" := by
  simp only [convert_datatype]
  split
  · split
    · repeat (first | exact (by decide) | apply ne_empty_of_left)
    · decide
  · split
    · split
      · split
        · decide
        · repeat (first | exact (by decide) | apply ne_empty_of_left)
      · decide
    · split
      · split
        · split
          · repeat (first | exact (by decide) | apply ne_empty_of_left)
          · repeat (first | exact (by decide) | apply ne_empty_of_left)
        · decide
      · cases hl : List.lookup (lowerString t) datatype_mapping with
        | none => simp [hl]
        | some v =>
            simp only [hl, Option.getD_some]
            exact lookup_ne_empty datatype_mapping (by decide) _ v hl


/-- C3: `convert_datatype` is pure and total — for every source type
name, length, precision and scale it returns a non-empty type string
(defaulting to `TEXT` for unrecognized names), and the four example
mappings of the specification hold. -/
theorem C3_type_mapper_total :
    (∀ (t : String) (l p s : Option Int), convert_datatype t l p s ≠ "")
    ∧ convert_datatype "varchar" (some 20000) none none = "TEXT"
    ∧ convert_datatype "varchar" (some 50) none none = "VARCHAR(50)"
    ∧ convert_datatype "decimal" none (some 10) (some 2) = "DECIMAL(10,2)"
    ∧ convert_datatype "char" (some 300) none none = "VARCHAR(300)" :=
  ⟨convert_datatype_nonempty, by decide, by decide, by decide, by decide⟩

/-! ### The transfer loop: checkpoint-commit and rollback behaviour -/

lemma migrateLoop_fail (batchSize total f : Nat) (batchOk : Nat → Bool)
    (hb : 0 < batchSize)
    (hfail : batchOk f = false)
    (hreach : (f - 1) * batchSize < total) :
    ∀ fuel n st,
      n < f →
      (∀ i, i < f → n < i → batchOk i = true) →
      st.committed = 50 * (n / 50) * batchSize →
      st.committed + st.pending = n * batchSize →
      f - n ≤ fuel →
      migrateLoop batchSize total batchOk fuel (n * batchSize) n st =
        (false, ⟨50 * ((f - 1) / 50) * batchSize, 0⟩) := by
  intro fuel
  induction fuel with
  | zero => intro n st hn _ _ _ hfuel; omega
  | succ fuel ih =>
      intro n st hn hok hc hsum hfuel
      have hoff : n * batchSize < total := by
        have h1 : n * batchSize ≤ (f - 1) * batchSize :=
          Nat.mul_le_mul_right _ (by omega)
        omega
      simp only [migrateLoop]
      rw [if_pos hoff]
      by_cases hnf : n + 1 = f
      · have hpage : ¬ (min batchSize (total - n * batchSize) = 0) := by omega
        rw [if_neg hpage]
        rw [show batchOk (n + 1) = false by rw [hnf]; exact hfail]
        simp only [Bool.false_eq_true, if_false, rollbackTx]
        have hn' : n = f - 1 := by omega
        rw [hc, hn']
      · have h1 : (n + 1) * batchSize ≤ (f - 1) * batchSize :=
          Nat.mul_le_mul_right _ (by omega)
        have h2 : (n + 1) * batchSize = n * batchSize + batchSize := Nat.succ_mul n batchSize
        have hpagelen : min batchSize (total - n * batchSize) = batchSize := by omega
        rw [hpagelen]
        rw [if_neg (by omega : ¬ (batchSize = 0))]
        have hoknext : batchOk (n + 1) = true := hok (n + 1) (by omega) (by omega)
        rw [hoknext]
        simp only [if_true]
        by_cases c50 : (n + 1) % 50 = 0
        · rw [if_pos (Or.inl c50)]
          simp only [commitTx, stageRows]
          have heq : n * batchSize + batchSize = (n + 1) * batchSize := h2.symm
          rw [heq]
          have hdvd : 50 ∣ (n + 1) := Nat.dvd_of_mod_eq_zero c50
          have hcomm : st.committed + (st.pending + batchSize) =
              50 * ((n + 1) / 50) * batchSize := by
            rw [Nat.mul_div_cancel' hdvd]
            omega
          have := ih (n + 1) ⟨st.committed + (st.pending + batchSize), 0⟩
            (by omega) (fun i hi hni => hok i hi (by omega))
            (by simpa using hcomm) (by simp; omega) (by omega)
          simpa [hcomm] using this
        · rw [if_neg (by push_neg; exact ⟨c50, by omega⟩)]
          simp only [stageRows]
          have heq : n * batchSize + batchSize = (n + 1) * batchSize := h2.symm
          rw [heq]
          have hnd : ¬ 50 ∣ (n + 1) := by omega
          have hdiveq : (n + 1) / 50 = n / 50 := by
            rw [Nat.succ_div]
            simp [hnd]
          exact ih (n + 1) ⟨st.committed, st.pending + batchSize⟩
            (by omega) (fun i hi hni => hok i hi (by omega))
            (by simp [hc, hdiveq]) (by simp; omega) (by omega)

lemma migrateLoop_success (batchSize total : Nat) (batchOk : Nat → Bool)
    (hb : 0 < batchSize) (hok : ∀ i, batchOk i = true) :
    ∀ fuel offset n st,
      st.committed + st.pending = min offset total →
      total - offset ≤ (fuel - 1) * batchSize →
      0 < fuel →
      migrateLoop batchSize total batchOk fuel offset n st = (true, ⟨total, 0⟩) := by
  intro fuel
  induction fuel with
  | zero => intro offset n st _ _ h0; omega
  | succ fuel ih =>
      intro offset n st hsum hfuel _
      simp only [migrateLoop]
      by_cases hoff : offset < total
      · rw [if_pos hoff]
        have hpage : ¬ (min batchSize (total - offset) = 0) := by omega
        rw [if_neg hpage]
        rw [hok (n + 1)]
        simp only [if_true]
        have hfuel1 : 0 < fuel := by
          rcases Nat.eq_zero_or_pos fuel with h | h
          · subst h
            simp at hfuel
            omega
          · exact h
        have hfuel' : total - (offset + batchSize) ≤ (fuel - 1) * batchSize := by
          rcases fuel with _ | m
          · omega
          · have : (m + 1) * batchSize = m * batchSize + batchSize := Nat.succ_mul m batchSize
            simp only [Nat.add_sub_cancel] at hfuel ⊢
            omega
        by_cases hcommit : (n + 1) % 50 = 0 ∨ total ≤ offset + batchSize
        · rw [if_pos hcommit]
          exact ih (offset + batchSize) (n + 1) _
            (by simp only [commitTx, stageRows]; omega) hfuel' hfuel1
        · rw [if_neg hcommit]
          exact ih (offset + batchSize) (n + 1) _
            (by simp only [stageRows]; omega) hfuel' hfuel1
      · rw [if_neg hoff]
        have : min offset total = total := by omega
        simp only [commitTx]
        rw [hsum, this]

lemma migrate_table_data_success (batchSize total : Nat) (batchOk : Nat → Bool)
    (hb : 0 < batchSize) (hok : ∀ i, batchOk i = true) :
    migrate_table_data batchSize total batchOk = (true, ⟨total, 0⟩) := by
  unfold migrate_table_data
  by_cases h0 : total = 0
  · rw [if_pos h0, h0]
  · rw [if_neg h0]
    apply migrateLoop_success batchSize total batchOk hb hok
    · simp
    · simp only [Nat.add_sub_cancel]
      calc total - 0 = total := by omega
        _ ≤ total * batchSize := Nat.le_mul_of_pos_right total hb
    · omega

lemma migrate_table_data_fail (batchSize total f : Nat) (batchOk : Nat → Bool)
    (hb : 0 < batchSize) (hf : 0 < f) (hfail : batchOk f = false)
    (hok : ∀ i, i < f → 0 < i → batchOk i = true)
    (hreach : (f - 1) * batchSize < total) :
    migrate_table_data batchSize total batchOk =
      (false, ⟨50 * ((f - 1) / 50) * batchSize, 0⟩) := by
  unfold migrate_table_data
  rw [if_neg (by omega : ¬ total = 0)]
  have hfuel : f - 0 ≤ total + 1 := by
    have : f - 1 ≤ (f - 1) * batchSize := Nat.le_mul_of_pos_right _ hb
    omega
  have := migrateLoop_fail batchSize total f batchOk hb hfail hreach (total + 1) 0 ⟨0, 0⟩
    hf (fun i hi h0i => hok i hi h0i) (by simp) (by simp) hfuel
  rw [Nat.zero_mul] at this
  exact this

set_option maxRecDepth 8000

/-- C1 (counterexample): with `batch_size = 1`, a 51-row table and an
insert failure at batch 51, `migrate_table_data` returns `False` yet the
target retains 50 committed rows — the in-loop commit at
`batch_number % 50 == 0` (line 661) makes partial table data visible
after a failed transfer, contradicting the claim that the transaction is
committed only when every batch succeeded. -/
theorem C1_counterexample :
    (migrate_table_data 1 51 (fun n => decide (n ≤ 50))).1 = false ∧
    (migrate_table_data 1 51 (fun n => decide (n ≤ 50))).2.committed ≠ 0 := by
  constructor
  · decide
  · decide

/-- C1 (amended): the final commit of a table happens exactly when every
batch succeeded (then all `total` rows are committed), and a batch
failure rolls back the whole uncommitted tail, so when the failure occurs
within the first 50 batches — before any intermediate 50-page checkpoint
has committed — the target holds no rows at all after the failed
transfer. -/
theorem C1_table_scoped_commit (batchSize total f : Nat) (batchOk : Nat → Bool)
    (hb : 0 < batchSize) (hf : 0 < f) (hf50 : f ≤ 50)
    (hfail : batchOk f = false)
    (hok : ∀ i, i < f → 0 < i → batchOk i = true)
    (hreach : (f - 1) * batchSize < total) :
    (∀ ok : Nat → Bool, (∀ i, ok i = true) →
        migrate_table_data batchSize total ok = (true, ⟨total, 0⟩)) ∧
    migrate_table_data batchSize total batchOk = (false, ⟨0, 0⟩) := by
  constructor
  · intro ok hok'
    exact migrate_table_data_success batchSize total ok hb hok'
  · have := migrate_table_data_fail batchSize total f batchOk hb hf hfail hok hreach
    rw [Nat.div_eq_of_lt (by omega : f - 1 < 50)] at this
    simpa using this

/-- C1 (witness): 51 one-row batches all succeeding commit all 51 rows;
a failure at batch 3 leaves the target empty. -/
theorem C1_witness :
    (∀ ok : Nat → Bool, (∀ i, ok i = true) →
        migrate_table_data 1 51 ok = (true, ⟨51, 0⟩)) ∧
    migrate_table_data 1 51 (fun n => decide (n ≠ 3)) = (false, ⟨0, 0⟩) :=
  C1_table_scoped_commit 1 51 3 (fun n => decide (n ≠ 3))
    (by decide) (by decide) (by decide) (by decide) (by decide) (by decide)

/-- C2: when batch `f` is the first to fail (all earlier batches
succeed and the failing batch is actually reached), the run returns
`False` and the target contains exactly the rows committed at the last
50-page checkpoint — `50 * ((f - 1) / 50)` full batches — with nothing
pending, hence at most the `(f - 1) * batchSize` rows inserted before the
failing batch and never any row of a partial uncommitted batch. -/
theorem C2_checkpoint_atomicity (batchSize total f : Nat) (batchOk : Nat → Bool)
    (hb : 0 < batchSize) (hf : 0 < f)
    (hfail : batchOk f = false)
    (hok : ∀ i, i < f → 0 < i → batchOk i = true)
    (hreach : (f - 1) * batchSize < total) :
    migrate_table_data batchSize total batchOk =
      (false, ⟨50 * ((f - 1) / 50) * batchSize, 0⟩) ∧
    50 * ((f - 1) / 50) * batchSize ≤ (f - 1) * batchSize := by
  refine ⟨migrate_table_data_fail batchSize total f batchOk hb hf hfail hok hreach, ?_⟩
  have h1 : (f - 1) / 50 * 50 ≤ f - 1 := Nat.div_mul_le_self _ _
  have h2 : 50 * ((f - 1) / 50) ≤ f - 1 := by omega
  exact Nat.mul_le_mul_right _ h2

/-- C2 (witness): 121 one-row pages with a failure at batch 120: two
checkpoints (batches 50 and 100) committed, so exactly 100 rows survive
the rollback. -/
theorem C2_witness :
    migrate_table_data 1 121 (fun n => decide (n ≤ 119)) = (false, ⟨100, 0⟩) ∧
    (100 : Nat) ≤ 119 := by
  have := C2_checkpoint_atomicity 1 121 120 (fun n => decide (n ≤ 119))
    (by decide) (by decide) (by decide) (by decide) (by decide)
  simpa using this


lemma chunksOfAux_join (k : Nat) (hk : 0 < k) :
    ∀ (fuel : Nat) (l : List α), l.length ≤ fuel → (chunksOfAux k fuel l).flatten = l := by
  intro fuel
  induction fuel with
  | zero =>
      intro l hl
      have : l = [] := List.length_eq_zero.mp (by omega)
      subst this
      rfl
  | succ fuel ih =>
      intro l hl
      cases l with
      | nil => rfl
      | cons x xs =>
          simp only [chunksOfAux, List.flatten_cons]
          rw [ih ((x :: xs).drop k) (by simp only [List.length_drop, List.length_cons] at hl ⊢; omega)]
          exact List.take_append_drop k (x :: xs)

lemma chunksOfAux_mem_length (k : Nat) :
    ∀ (fuel : Nat) (l : List α) (c : List α), c ∈ chunksOfAux k fuel l → c.length ≤ k := by
  intro fuel
  induction fuel with
  | zero => intro l c hc; simp [chunksOfAux] at hc
  | succ fuel ih =>
      intro l c hc
      cases l with
      | nil => simp [chunksOfAux] at hc
      | cons x xs =>
          simp only [chunksOfAux, List.mem_cons] at hc
          rcases hc with h | h
          · subst h
            simp [List.length_take]
          · exact ih _ c h

lemma chunksOf_join (k : Nat) (hk : 0 < k) (l : List α) : (chunksOf k l).flatten = l :=
  chunksOfAux_join k hk l.length l le_rfl

lemma chunksOf_mem_length (k : Nat) (l : List α) : ∀ c ∈ chunksOf k l, c.length ≤ k :=
  fun c => chunksOfAux_mem_length k l.length l c

/-- C4: the insert plan of `insert_batch_to_mariadb` for one page —
exactly one row gives a single-row insert, 2 to 100 rows one batched
call, more than 100 rows one batched call per consecutive chunk of at
most 100 rows whose concatenation is the page; a 101-row page splits
into chunks of 100 and 1. -/
theorem C4_insert_chunking {α : Type} :
    (∀ (r : α), insert_batch_to_mariadb [r] = [InsertCall.single r]) ∧
    (∀ rows : List α, 2 ≤ rows.length → rows.length ≤ 100 →
        insert_batch_to_mariadb rows = [InsertCall.batch rows]) ∧
    (∀ rows : List α, 100 < rows.length →
        insert_batch_to_mariadb rows = (chunksOf 100 rows).map InsertCall.batch ∧
        (chunksOf 100 rows).flatten = rows ∧
        ∀ c ∈ chunksOf 100 rows, c.length ≤ 100) ∧
    insert_batch_to_mariadb (List.range 101) =
      [InsertCall.batch (List.range 100), InsertCall.batch [100]] := by
  refine ⟨fun r => rfl, ?_, ?_, by decide⟩
  · intro rows h2 h100
    rcases rows with _ | ⟨r₁, _ | ⟨r₂, rest⟩⟩
    · simp at h2
    · simp at h2
    · simp only [insert_batch_to_mariadb]
      rw [if_pos h100]
  · intro rows h100
    rcases rows with _ | ⟨r₁, _ | ⟨r₂, rest⟩⟩
    · simp at h100
    · simp at h100
    · refine ⟨?_, chunksOf_join 100 (by omega) _, chunksOf_mem_length 100 _⟩
      simp only [insert_batch_to_mariadb]
      rw [if_neg (by omega)]


/-- C4 (witness): concrete pages of 1, 100 and 101 rows. -/
theorem C4_witness :
    insert_batch_to_mariadb [(0 : Nat)] = [InsertCall.single 0] ∧
    insert_batch_to_mariadb (List.range 100) = [InsertCall.batch (List.range 100)] ∧
    insert_batch_to_mariadb (List.range 101) =
      (chunksOf 100 (List.range 101)).map InsertCall.batch := by
  obtain ⟨h1, h2, h3, _⟩ := @C4_insert_chunking Nat
  exact ⟨h1 0, h2 (List.range 100) (by decide) (by decide),
    (h3 (List.range 101) (by decide)).1⟩


/-- C5: `data_consistency` is always the conjunction of
`record_count_match`, `sample_data_match` and `extreme_values_match`;
and for equal non-zero row counts with a numeric column whose MIN or MAX
differs, `extreme_values_match` and `data_consistency` are `false`. -/
theorem C5_validator_consistency {ρ : Type} (mssqlCount mariadbCount : Nat)
    (mssqlSample mariadbSample : List ρ) (cols : List ColExtremes)
    (hcnt : mssqlCount = mariadbCount) (hpos : 0 < mssqlCount)
    (hmm : ∃ c ∈ cols, c.srcMin ≠ c.tgtMin ∨ c.srcMax ≠ c.tgtMax) :
    (∀ (a b : Nat) (ss ts : List ρ) (cs : List ColExtremes),
        (validate_single_table a b ss ts cs).data_consistency =
          ((validate_single_table a b ss ts cs).record_count_match &&
           (validate_single_table a b ss ts cs).sample_data_match &&
           (validate_single_table a b ss ts cs).extreme_values_match)) ∧
    (validate_single_table mssqlCount mariadbCount mssqlSample
        mariadbSample cols).extreme_values_match = false ∧
    (validate_single_table mssqlCount mariadbCount mssqlSample
        mariadbSample cols).data_consistency = false := by
  have hev : validate_extreme_values cols = false := by
    rcases hmm with ⟨c, hc, hne⟩
    simp only [validate_extreme_values, List.all_eq_false]
    refine ⟨c, hc, ?_⟩
    rcases hne with h | h <;> simp [h]
  refine ⟨fun a b ss ts cs => rfl, ?_, ?_⟩
  · simp [validate_single_table, hev]
  · simp [validate_single_table, hev]

/-- C5 (witness): equal counts 1 = 1 but MAX 5 versus 7 on the single
numeric column. -/
theorem C5_witness :
    (validate_single_table 1 1 [(0 : Nat)] [0]
        [⟨some 1, some 5, some 1, some 7⟩]).extreme_values_match = false ∧
    (validate_single_table 1 1 [(0 : Nat)] [0]
        [⟨some 1, some 5, some 1, some 7⟩]).data_consistency = false := by
  have := C5_validator_consistency 1 1 [(0 : Nat)] [0]
    [⟨some 1, some 5, some 1, some 7⟩] rfl (by decide) (by decide)
  exact ⟨this.2.1, this.2.2⟩

/-- C6: `validate_sample_data` returns `true` exactly when the source
sample is empty or the two samples have equal length, and its result is
unchanged by replacing either sample with any other list of the same
length — even over a different row type — so no row values are ever
compared. -/
theorem C6_sample_check_sizes_only {ρ ρ' : Type} (src tgt : List ρ) (src' tgt' : List ρ') :
    (validate_sample_data src tgt = true ↔ src = [] ∨ src.length = tgt.length) ∧
    (src.length = src'.length → tgt.length = tgt'.length →
      validate_sample_data src tgt = validate_sample_data src' tgt') := by
  constructor
  · by_cases h : src.isEmpty
    · simp [validate_sample_data, h, List.isEmpty_iff.mp h]
    · have hne : ¬ src = [] := fun hc => h (List.isEmpty_iff.mpr hc)
      simp [validate_sample_data, h, hne]
  · intro h1 h2
    by_cases h : src = []
    · have h' : src' = [] := List.length_eq_zero.mp (by rw [← h1, h]; rfl)
      simp [validate_sample_data, h, h']
    · have h' : ¬ src' = [] := fun hc => h (List.length_eq_zero.mp (by rw [h1, hc]; rfl))
      simp only [validate_sample_data]
      rw [if_neg (fun hc => h (List.isEmpty_iff.mp hc)),
        if_neg (fun hc => h' (List.isEmpty_iff.mp hc)), h1, h2]

/-- C6 (witness): two equal-length samples of numbers compare equal to
two equal-length samples of booleans. -/
theorem C6_witness :
    (validate_sample_data [(0 : Nat), 1] [5, 6] = true ↔
      [(0 : Nat), 1] = [] ∨ [(0 : Nat), 1].length = [5, 6].length) ∧
    validate_sample_data [(0 : Nat), 1] [5, 6] =
      validate_sample_data [true, false] [false, true] :=
  ⟨(C6_sample_check_sizes_only [(0 : Nat), 1] [5, 6] [true, false] [false, true]).1,
   (C6_sample_check_sizes_only [(0 : Nat), 1] [5, 6] [true, false] [false, true]).2
     (by decide) (by decide)⟩

/-- C7: `migrate_full_database` reports success exactly when at least
one of the attempted tables transferred successfully, and its
failed-table list is precisely the attempted tables whose transfer
failed — the attempt list `transferAttempts` does not depend on
`migrateOk`, so one table's failure never removes a later table from
processing. -/
theorem C7_overall_success (tableOrder allTables : List String)
    (schemaOk createOk migrateOk : String → Bool) :
    ((migrate_full_database tableOrder allTables schemaOk createOk migrateOk).success = true ↔
      ∃ t ∈ transferAttempts tableOrder allTables schemaOk createOk, migrateOk t = true) ∧
    (migrate_full_database tableOrder allTables schemaOk createOk migrateOk).failedTables =
      (transferAttempts tableOrder allTables schemaOk createOk).filter
        (fun t => !(migrateOk t)) := by
  unfold migrate_full_database transferAttempts
  by_cases hemp : allTables.isEmpty
  · simp [hemp]
  · rw [if_neg hemp, if_neg hemp]
    by_cases hz : ((phase2Tables tableOrder allTables).filter
        (fun t => schemaOk t && createOk t)).length = 0
    · simp [hz]
    · rw [if_neg hz, if_neg hz]
      constructor
      · simp only [decide_eq_true_eq]
        constructor
        · intro hpos
          have : (phase2Tables tableOrder allTables).filter (fun t => migrateOk t) ≠ [] ∨
              (remainingAttempts tableOrder allTables schemaOk createOk).filter
                (fun t => migrateOk t) ≠ [] := by
            by_contra hc
            push_neg at hc
            rcases hc with ⟨h1, h2⟩
            rw [h1, h2] at hpos
            simp at hpos
          rcases this with h | h
          · rcases List.exists_mem_of_ne_nil _ h with ⟨t, ht⟩
            rcases List.mem_filter.mp ht with ⟨htm, htp⟩
            exact ⟨t, List.mem_append_left _ htm, htp⟩
          · rcases List.exists_mem_of_ne_nil _ h with ⟨t, ht⟩
            rcases List.mem_filter.mp ht with ⟨htm, htp⟩
            exact ⟨t, List.mem_append_right _ htm, htp⟩
        · rintro ⟨t, htm, htp⟩
          rcases List.mem_append.mp htm with h | h
          · have : t ∈ (phase2Tables tableOrder allTables).filter (fun t => migrateOk t) :=
              List.mem_filter.mpr ⟨h, htp⟩
            have := List.length_pos.mpr (List.ne_nil_of_mem this)
            omega
          · have : t ∈ (remainingAttempts tableOrder allTables schemaOk createOk).filter
                (fun t => migrateOk t) := List.mem_filter.mpr ⟨h, htp⟩
            have := List.length_pos.mpr (List.ne_nil_of_mem this)
            omega
      · rw [List.filter_append]

/-- C7 (witness): with tables `A`, `B`, `C` and only `A` transferring
successfully, the run succeeds and `B`, `C` are the failed tables. -/
theorem C7_witness :
    (migrate_full_database ["A", "B"] ["A", "B", "C"] (fun _ => true) (fun _ => true)
      (fun t => t == "A")).success = true ∧
    (migrate_full_database ["A", "B"] ["A", "B", "C"] (fun _ => true) (fun _ => true)
      (fun t => t == "A")).failedTables = ["B", "C"] := by
  refine ⟨(C7_overall_success _ _ _ _ _).1.mpr ⟨"A", by decide, by decide⟩, ?_⟩
  rw [(C7_overall_success _ _ _ _ _).2]
  decide


/-- C10: a non-`Memo` table with source and target counts both zero
gets `record_count_match = true` but `sample_data_match`,
`extreme_values_match` and hence `data_consistency` stay `false` — an
empty table that migrated perfectly is reported as not consistent. -/
theorem C10_empty_table_inconsistent {ρ : Type} (ss ts : List ρ) (cols : List ColExtremes) :
    validate_single_table 0 0 ss ts cols =
      { record_count_match := true, mssql_count := 0, mariadb_count := 0,
        sample_data_match := false, extreme_values_match := false,
        data_consistency := false } := rfl

/-- C9: whenever a source table is named `Memo`,
`validate_migration_complete` records for it the hard-coded result —
all four flags `true` and both counts `0` — independently of the
validation oracle, i.e. without issuing any query for it; every entry
recorded under the name `Memo` equals that constant. -/
theorem C9_memo_shortcircuit (tables : List String) (validateTable : String → TableValidation)
    (hmem : "Memo" ∈ tables) :
    ("Memo", memoValidation) ∈ (validate_migration_complete tables validateTable).1 ∧
    (∀ p ∈ (validate_migration_complete tables validateTable).1,
        p.1 = "Memo" → p.2 = memoValidation) ∧
    memoValidation.record_count_match = true ∧
    memoValidation.mssql_count = 0 ∧
    memoValidation.mariadb_count = 0 ∧
    memoValidation.sample_data_match = true ∧
    memoValidation.extreme_values_match = true ∧
    memoValidation.data_consistency = true := by
  refine ⟨?_, ?_, rfl, rfl, rfl, rfl, rfl, rfl⟩
  · simp only [validate_migration_complete]
    exact List.mem_map.mpr ⟨"Memo", hmem, by simp⟩
  · intro p hp hname
    simp only [validate_migration_complete, List.mem_map] at hp
    rcases hp with ⟨t, _, rfl⟩
    simp only at hname
    simp [hname]

/-- C9 (witness): a run over tables `Memo` and `Factory` with an
oracle that reports inconsistency still records the constant result for
`Memo`. -/
theorem C9_witness :
    ("Memo", memoValidation) ∈
      (validate_migration_complete ["Memo", "Factory"]
        (fun _ => ⟨false, 1, 2, false, false, false⟩)).1 ∧
    memoValidation.data_consistency = true := by
  have := C9_memo_shortcircuit ["Memo", "Factory"]
    (fun _ => ⟨false, 1, 2, false, false, false⟩) (by decide)
  exact ⟨this.1, this.2.2.2.2.2.2.2⟩


lemma truncateValue_le (v : Val) : valLen (truncateValue v) ≤ 50 := by
  cases v with
  | vstr s =>
      simp only [truncateValue]
      split
      · simp [valLen]
      · simp only [valLen]
        omega
  | vnum n => exact Nat.zero_le _
  | vnull => exact Nat.zero_le _

lemma fallbackLoop_spec (rowOk : Nat → Bool) :
    ∀ (rows : List (List Val)) (idx s e : Nat) (log : List (Nat × List Val)),
      e ≤ 10 →
      log.length = min e 5 →
      (∀ p ∈ log, ∀ v ∈ p.2, valLen v ≤ 50) →
      (fallbackLoop rowOk rows idx s e log).errorCount ≤ 11 ∧
      e ≤ (fallbackLoop rowOk rows idx s e log).errorCount ∧
      (fallbackLoop rowOk rows idx s e log).attempted =
        (fallbackLoop rowOk rows idx s e log).successCount +
        (fallbackLoop rowOk rows idx s e log).errorCount ∧
      ((fallbackLoop rowOk rows idx s e log).errorCount ≤ 10 →
        (fallbackLoop rowOk rows idx s e log).attempted = s + e + rows.length) ∧
      (fallbackLoop rowOk rows idx s e log).attempted ≤ s + e + rows.length ∧
      (fallbackLoop rowOk rows idx s e log).loggedErrors.length =
        min (fallbackLoop rowOk rows idx s e log).errorCount 5 ∧
      (∀ p ∈ (fallbackLoop rowOk rows idx s e log).loggedErrors, ∀ v ∈ p.2, valLen v ≤ 50) ∧
      (fallbackLoop rowOk rows idx s e log).returnValue =
        ((fallbackLoop rowOk rows idx s e log).errorCount == 0) := by
  intro rows
  induction rows with
  | nil =>
      intro idx s e log he hlen hbound
      refine ⟨?_, ?_, ?_, ?_, ?_, ?_, ?_, ?_⟩
      · show e ≤ 11
        omega
      · show e ≤ e
        omega
      · show s + e = s + e
        rfl
      · intro _
        show s + e = s + e + ([] : List (List Val)).length
        simp
      · show s + e ≤ s + e + ([] : List (List Val)).length
        simp
      · show log.length = min e 5
        exact hlen
      · exact hbound
      · rfl
  | cons row rest ih =>
      intro idx s e log he hlen hbound
      simp only [fallbackLoop]
      by_cases hok : rowOk idx = true
      · rw [if_pos hok]
        have := ih (idx + 1) (s + 1) e log he hlen hbound
        refine ⟨this.1, this.2.1, this.2.2.1, ?_, ?_, this.2.2.2.2.2.1,
          this.2.2.2.2.2.2.1, this.2.2.2.2.2.2.2⟩
        · intro h10
          have := this.2.2.2.1 h10
          simp only [List.length_cons]
          omega
        · have := this.2.2.2.2.1
          simp only [List.length_cons]
          omega
      · rw [if_neg hok]
        by_cases hbreak : 10 < e + 1
        · have he10 : e = 10 := by omega
          have hlog5 : ¬ (e + 1 ≤ 5) := by omega
          rw [if_neg hlog5, if_pos hbreak]
          refine ⟨?_, ?_, ?_, ?_, ?_, ?_, ?_, ?_⟩
          · show e + 1 ≤ 11
            omega
          · show e ≤ e + 1
            omega
          · show s + (e + 1) = s + (e + 1)
            rfl
          · intro h
            have hh : e + 1 ≤ 10 := h
            omega
          · show s + (e + 1) ≤ s + e + (row :: rest).length
            simp only [List.length_cons]
            omega
          · show log.length = min (e + 1) 5
            rw [hlen]
            omega
          · exact hbound
          · rfl
        · rw [if_neg hbreak]
          have he' : e + 1 ≤ 10 := by omega
          by_cases hlog : e + 1 ≤ 5
          · rw [if_pos hlog]
            have hlen' : (log ++ [(idx, row.map truncateValue)]).length = min (e + 1) 5 := by
              rw [List.length_append, hlen]
              simp only [List.length_singleton]
              omega
            have hbound' : ∀ p ∈ log ++ [(idx, row.map truncateValue)],
                ∀ v ∈ p.2, valLen v ≤ 50 := by
              intro p hp v hv
              rcases List.mem_append.mp hp with h | h
              · exact hbound p h v hv
              · rcases List.mem_singleton.mp h with rfl
                simp only at hv
                rcases List.mem_map.mp hv with ⟨u, _, rfl⟩
                exact truncateValue_le u
            have := ih (idx + 1) s (e + 1) (log ++ [(idx, row.map truncateValue)])
              he' hlen' hbound'
            refine ⟨this.1, by omega, this.2.2.1, ?_, ?_, this.2.2.2.2.2.1,
              this.2.2.2.2.2.2.1, this.2.2.2.2.2.2.2⟩
            · intro h10
              have := this.2.2.2.1 h10
              simp only [List.length_cons]
              omega
            · have := this.2.2.2.2.1
              simp only [List.length_cons]
              omega
          · rw [if_neg hlog]
            have hlen' : log.length = min (e + 1) 5 := by
              rw [hlen]
              omega
            have := ih (idx + 1) s (e + 1) log he' hlen' hbound
            refine ⟨this.1, by omega, this.2.2.1, ?_, ?_, this.2.2.2.2.2.1,
              this.2.2.2.2.2.2.1, this.2.2.2.2.2.2.2⟩
            · intro h10
              have := this.2.2.2.1 h10
              simp only [List.length_cons]
              omega
            · have := this.2.2.2.2.1
              simp only [List.length_cons]
              omega

/-- C8: the row-by-row fallback returns `True` exactly when zero
errors occurred; the error count never exceeds 11, and only when it
stays at most 10 has every row been attempted (so reaching more than 10
errors halts the loop early); at most the first 5 failing rows are
logged (`min errorCount 5` entries) and every logged string value is
truncated to at most 50 characters; 15 consecutively failing rows stop
after 11 attempts with `errorCount = 11`. -/
theorem C8_fallback_error_cap (rows : List (List Val)) (rowOk : Nat → Bool) :
    (fallback_single_insert rows rowOk).returnValue =
      ((fallback_single_insert rows rowOk).errorCount == 0) ∧
    (fallback_single_insert rows rowOk).errorCount ≤ 11 ∧
    ((fallback_single_insert rows rowOk).errorCount ≤ 10 →
      (fallback_single_insert rows rowOk).attempted = rows.length) ∧
    (fallback_single_insert rows rowOk).attempted ≤ rows.length ∧
    (fallback_single_insert rows rowOk).loggedErrors.length =
      min (fallback_single_insert rows rowOk).errorCount 5 ∧
    (∀ p ∈ (fallback_single_insert rows rowOk).loggedErrors, ∀ v ∈ p.2, valLen v ≤ 50) ∧
    (fallback_single_insert (List.replicate 15 ([] : List Val))
      (fun _ => false)).errorCount = 11 ∧
    (fallback_single_insert (List.replicate 15 ([] : List Val))
      (fun _ => false)).attempted = 11 := by
  have h := fallbackLoop_spec rowOk rows 0 0 0 [] (by omega) (by simp) (by simp)
  refine ⟨h.2.2.2.2.2.2.2, h.1, ?_, ?_, h.2.2.2.2.2.1, h.2.2.2.2.2.2.1, by decide, by decide⟩
  · intro h10
    have := h.2.2.2.1 h10
    simpa using this
  · have := h.2.2.2.2.1
    simpa using this

/-- C8 (witness): all-failing input returns `False`; an error-free
3-row page attempts all 3 rows and returns `True`. -/
theorem C8_witness :
    (fallback_single_insert (List.replicate 15 ([] : List Val))
      (fun _ => false)).returnValue = false ∧
    (fallback_single_insert (List.replicate 3 ([] : List Val))
      (fun _ => true)).attempted = 3 ∧
    (fallback_single_insert (List.replicate 3 ([] : List Val))
      (fun _ => true)).returnValue = true := by
  refine ⟨?_, ?_, ?_⟩
  · rw [(C8_fallback_error_cap (List.replicate 15 ([] : List Val)) (fun _ => false)).1]
    decide
  · have := (C8_fallback_error_cap (List.replicate 3 ([] : List Val))
      (fun _ => true)).2.2.1 (by decide)
    simpa using this
  · rw [(C8_fallback_error_cap (List.replicate 3 ([] : List Val)) (fun _ => true)).1]
    decide

end DBTransfer
